/-
Verification of the aice_ps photo-editor core mechanisms against their
natural-language specification.

The development shallowly embeds, in Lean 4, the pieces of the TypeScript
source that the specification talks about:

  * the editor history / undo model of the `EditorView` component
    (`updateHistory`, `handleUndo`, `handleRedo`, `handleStartOver`,
    `handleRegenerate`, `handleLocalFileSelect`, `handleFileInputChange`);
  * the bounded-concurrency batch pool of `PastForwardPage.handleGenerateClick`;
  * the batch aggregation effect and `generateWithRetry` of `BeatSyncPage`;
  * the fallback-prompt policy of the `geminiService` generation functions
    (`generateFilteredImage`, `generateStyledImage`, `generateAdjustedImage`,
    `generateTexturedImage`, `generateDecadeImage`).

Network calls are abstracted as oracles (functions from prompts or call
indices to `Except` results); React state updates are modelled by explicit
state-passing functions.  Where JavaScript semantics matter (negative
`Array.prototype.slice` ends, truthiness of the empty string, stale closures
over `useState` values in async continuations), the embedding follows the
JavaScript behaviour of the source, not the intent the surrounding comments
express; the divergences are proved below.
-/
import Mathlib

namespace AicePs

/-- Model of a JavaScript `File` value as the editor sees it: a name, a MIME
type string (`File.type`) and a byte size (`File.size`).  The blob contents
are irrelevant to every claim, so files are compared by these fields. -/
structure JsFile where
  name : String
  type : String
  size : Nat
deriving DecidableEq, Repr

/-- Pixel coordinate of a retouch instruction (`{ x, y }` in the source). -/
structure Hotspot where
  x : Int
  y : Int
deriving DecidableEq, Repr

/-- The `LastAction` tagged union of `EditorView` recording the parameters of
the most recent generative operation. -/
inductive LastAction where
  | retouch (prompt : String) (hotspot : Hotspot)
  | adjust (prompt : String)
  | filters (prompt : String)
  | fusion (prompt : String) (sourceImages : List JsFile)
  | texture (prompt : String)
  | erase
deriving DecidableEq, Repr

/-- The slice of `EditorView` React state that the history claims are about:
`history : File[]`, `historyIndex : number`, `lastAction`, `isLoading` and the
`error` banner.  The purely visual pieces of state (crop rectangles, active
tab, retouch hotspot) do not affect any claim and are not modelled. -/
structure EditorState where
  history : List JsFile
  historyIndex : Int
  lastAction : Option LastAction
  isLoading : Bool
  error : Option String
deriving DecidableEq, Repr

/-- JavaScript `arr.slice(0, e)` for an integer `e`: a negative end counts
from the end of the array (clamped at 0), a non-negative end is clamped at
the length.  `updateHistory` computes `history.slice(0, historyIndex + 1)`,
so this is the exact truncation semantics of the source. -/
def jsSliceTo (l : List α) (e : Int) : List α :=
  if e < 0 then l.take ((l.length : Int) + e).toNat else l.take e.toNat

/-- JavaScript `s.startsWith(pre)` (structural implementation over the
character lists, so that concrete instances evaluate inside the kernel). -/
def jsStartsWith (s pre : String) : Bool :=
  pre.data.isPrefixOf s.data

/-- The source's `updateHistory(newFile)`: truncate the history after the
cursor with `history.slice(0, historyIndex + 1)`, append the new file, and
set the cursor to the new last index. -/
def updateHistory (newFile : JsFile) (s : EditorState) : EditorState :=
  let newHistory := jsSliceTo s.history (s.historyIndex + 1) ++ [newFile]
  { s with history := newHistory, historyIndex := (newHistory.length : Int) - 1 }

/-- The source's `handleUndo`: decrement the cursor when `historyIndex > 0`,
otherwise do nothing. -/
def handleUndo (s : EditorState) : EditorState :=
  if 0 < s.historyIndex then { s with historyIndex := s.historyIndex - 1 } else s

/-- The source's `handleRedo`: increment the cursor when
`historyIndex < history.length - 1`, otherwise do nothing. -/
def handleRedo (s : EditorState) : EditorState :=
  if s.historyIndex < (s.history.length : Int) - 1 then
    { s with historyIndex := s.historyIndex + 1 }
  else s

/-- The source's `handleStartOver`: clear the history, set the cursor to -1
and drop the recorded last action. -/
def handleStartOver (s : EditorState) : EditorState :=
  { s with history := [], historyIndex := -1, lastAction := none }

/-- JavaScript `history[historyIndex]` (the source's `currentImageFile`):
`none` models `undefined`, returned for a negative or out-of-range index. -/
def current (s : EditorState) : Option JsFile :=
  if 0 ≤ s.historyIndex then s.history.get? s.historyIndex.toNat else none

/-- The initial `EditorView` state: `useState<File[]>([])` and
`useState<number>(-1)`. -/
def initialEditorState : EditorState :=
  { history := [], historyIndex := -1, lastAction := none,
    isLoading := false, error := none }

/-- One editor history operation, as named by the specification. -/
inductive HistOp where
  | push (e : JsFile)
  | undo
  | redo
  | reset
deriving DecidableEq, Repr

/-- Dispatch a history operation to the corresponding source handler. -/
def applyHistOp (s : EditorState) (op : HistOp) : EditorState :=
  match op with
  | .push e => updateHistory e s
  | .undo => handleUndo s
  | .redo => handleRedo s
  | .reset => handleStartOver s

/-- Run a sequence of history operations from the initial (empty) state. -/
def runHistOps (ops : List HistOp) : EditorState :=
  ops.foldl applyHistOp initialEditorState

/-- The history invariant of the specification's data model: the cursor is -1
exactly when the history is empty, and otherwise lies inside the history. -/
def histInvariant (s : EditorState) : Prop :=
  (s.history = [] → s.historyIndex = -1) ∧
  (s.history ≠ [] → 0 ≤ s.historyIndex ∧ s.historyIndex < (s.history.length : Int))

/-- The source's `handleRegenerate`, run to completion together with the
`runGenerativeTask` it starts, with the generative network call abstracted as
its `outcome` (`.ok newFile` for a successful call whose data URL converts to
`newFile`, `.error msg` for a rejection).

Control flow of the source:

* `if (!lastAction || historyIndex < 1 || isLoading) return;` — guard;
* `setHistoryIndex(historyIndex - 1)` — the cursor is decremented;
* `runGenerativeTask(task, 1)` — sets `isLoading`/clears `error`, awaits the
  call, and on success calls `updateHistory(newFile)`.

`runGenerativeTask` and `updateHistory` are closures of the render in which
`handleRegenerate` ran, so the `history` and `historyIndex` they read are the
values from *before* the `setHistoryIndex(historyIndex - 1)` call (React
state setters do not mutate the captured bindings).  On success the final
state is therefore `updateHistory newFile` applied to the original state —
the transient cursor decrement and `isLoading := true` are overwritten.  On
failure only `setError` runs, so the cursor stays decremented. -/
def handleRegenerate (s : EditorState) (outcome : Except String JsFile) : EditorState :=
  if s.lastAction = none ∨ s.historyIndex < 1 ∨ s.isLoading = true then s
  else
    match outcome with
    | .ok newFile => { updateHistory newFile s with error := none, isLoading := false }
    | .error msg =>
      { s with historyIndex := s.historyIndex - 1, error := some msg, isLoading := false }

/-- Modelled from the spec: the behaviour §4.3 (and the source's own inline
comment) ascribes to regenerate — "move cursor back one, then push new
entry".  Stated as a second definition so the code's actual `handleRegenerate`
can be compared against it. -/
def regenerateSpecResult (s : EditorState) (newFile : JsFile) : EditorState :=
  updateHistory newFile { s with historyIndex := s.historyIndex - 1 }

/-- The source's `MAX_FILE_SIZE_BYTES = 12 * 1024 * 1024`. -/
def maxFileSizeBytes : Nat := 12 * 1024 * 1024

/-- The source's `handleLocalFileSelect(files)` (initial upload path): takes
`files[0]`, rejects it with a validation error banner when
`file.size > MAX_FILE_SIZE_BYTES`, and otherwise resets the history to that
single file.  No network call is involved in either branch. -/
def handleLocalFileSelect (files : List JsFile) (s : EditorState) : EditorState :=
  match files with
  | [] => s
  | file :: _ =>
    if maxFileSizeBytes < file.size then
      { s with error := some "图片文件大小不能超过 12MB。请选择一个较小的文件。" }
    else
      { s with history := [file], historyIndex := 0, error := none, lastAction := none }

/-- The source's `handleFileInputChange` (the replace-image upload path): when
a file is present and `file.type.startsWith('image/')`, it calls
`updateHistory(file)` and clears `lastAction`; it performs no size check.

The handler is `useCallback(..., [])`, so the memoized callback is the mount's
first-render closure: the `updateHistory` it calls closed over the initial
`history = []` and `historyIndex = -1`.  Whenever it runs, that stale
`updateHistory` computes `[].slice(0, -1 + 1)` concatenated with `[file]` and
so resets the history to `[file]` with cursor 0, discarding all current
entries (the `useState` setters it invokes are stable and still update the
live state).  The embedding follows this actual behaviour, which equals
`updateHistory file` applied to the empty first-render history. -/
def handleFileInputChange (file? : Option JsFile) (s : EditorState) : EditorState :=
  match file? with
  | none => s
  | some file =>
    if jsStartsWith file.type "image/" then
      { updateHistory file { s with history := [], historyIndex := -1 } with
          lastAction := none }
    else s

/-- Sample image files used by concrete witnesses and counterexamples,
distinguished by name. -/
def sampleFile (n : Nat) : JsFile :=
  { name := "img" ++ toString n ++ ".png", type := "image/png", size := 1000 + n }

/-- Concrete editor state with a three-entry history, cursor on the last
entry, and a recorded adjust action: the state right after two generative
edits of an uploaded photo. -/
def regenState3 : EditorState :=
  { history := [sampleFile 0, sampleFile 1, sampleFile 2], historyIndex := 2,
    lastAction := some (.adjust "warmer colors"), isLoading := false, error := none }

/-- An image file one byte over the 12 MB cap. -/
def oversizedFile : JsFile :=
  { name := "big.png", type := "image/png", size := 12 * 1024 * 1024 + 1 }

/-- Concrete editor state holding one uploaded image, used to exercise the
replace-image path. -/
def demoEditorState : EditorState :=
  { history := [sampleFile 0], historyIndex := 0, lastAction := none,
    isLoading := false, error := none }

/-- One entry of `BeatSyncPage`'s `generatedImages` record.  The source type
is `{ status; url?; error? }`, but the only shapes ever constructed are
`{ status: 'pending' }`, `{ status: 'done', url }` and
`{ status: 'error', error }`, which this inductive captures. -/
inductive GeneratedImage where
  | pending
  | done (url : String)
  | error (msg : String)
deriving DecidableEq, Repr

/-- JavaScript truthiness test `img.status === 'pending'`. -/
def GeneratedImage.isPending : GeneratedImage → Bool
  | .pending => true
  | _ => false

/-- The source's success filter `img.status === 'done' && img.url`: a done
entry whose url is truthy (JavaScript treats the empty string as falsy). -/
def GeneratedImage.isSuccess : GeneratedImage → Bool
  | .done url => !url.isEmpty
  | _ => false

/-- Test for a terminal failure entry. -/
def GeneratedImage.isError : GeneratedImage → Bool
  | .error _ => true
  | _ => false

/-- The url carried by a done entry. -/
def GeneratedImage.url? : GeneratedImage → Option String
  | .done url => some url
  | _ => none

/-- What `BeatSyncPage` does once a batch completes: either a total-failure
error state, or a `createVideo` call on the successful urls together with a
flag saying whether the non-fatal partial-failure notification was shown. -/
inductive BatchOutcome where
  | totalFailure (msg : String)
  | createVideo (urls : List String) (partialNotice : Bool)
deriving DecidableEq, Repr

/-- The source's `allDone` condition in the `BeatSyncPage` effect:
`Object.values(generatedImages).length === imageCount` and every entry is no
longer pending.  `Object.values` of the integer-keyed record is modelled as a
list in index order. -/
def allDone (images : List GeneratedImage) (imageCount : Nat) : Bool :=
  images.length == imageCount && images.all (fun img => !img.isPending)

/-- The aggregation branch of the `BeatSyncPage` effect that runs once
`allDone` holds: filter the successes; if none, set the total-failure error;
otherwise emit the partial notice when fewer than `imageCount` succeeded and
call `createVideo` with the successful urls. -/
def finishBatch (images : List GeneratedImage) (imageCount : Nat) : BatchOutcome :=
  let successfulImages := images.filter GeneratedImage.isSuccess
  if successfulImages.length = 0 then
    .totalFailure "所有图片生成失败，请重试。"
  else
    .createVideo (successfulImages.filterMap GeneratedImage.url?)
      (successfulImages.length < imageCount)

/-- The source's `generateWithRetry(file, prompt, retries)` with the network
call `generateStyledImage` abstracted as an oracle from the attempt number to
its result.  The 1-second pause before a retry has no observable effect on
the result and is not modelled. -/
def generateWithRetry (oracle : Nat → Except String String) (attempt retries : Nat) :
    Except String String :=
  match oracle attempt with
  | .ok r => .ok r
  | .error e =>
    match retries with
    | 0 => .error e
    | r + 1 => generateWithRetry oracle (attempt + 1) r

/-- Number of `generateStyledImage` calls `generateWithRetry` issues. -/
def retryCallCount (oracle : Nat → Except String String) (attempt retries : Nat) : Nat :=
  match oracle attempt with
  | .ok _ => 1
  | .error _ =>
    match retries with
    | 0 => 1
    | r + 1 => 1 + retryCallCount oracle (attempt + 1) r

/-- The terminal status `BeatSyncPage.processQueue` records for one task: it
awaits `generateWithRetry` with the default `retries = 1` and stores
`{ status: 'done', url }` on success or `{ status: 'error', error }` on
rejection. -/
def processQueueStatus (oracle : Nat → Except String String) : GeneratedImage :=
  match generateWithRetry oracle 0 1 with
  | .ok url => .done url
  | .error msg => .error msg

/-- Whether `sub` occurs as a contiguous run inside a character list;
implements JavaScript `String.prototype.includes`. -/
def containsSub (sub : List Char) : List Char → Bool
  | [] => sub.isEmpty
  | c :: cs => sub.isPrefixOf (c :: cs) || containsSub sub cs

/-- JavaScript `s.includes(sub)`. -/
def jsIncludes (s sub : String) : Bool :=
  containsSub sub.data s.data

/-- The exact message `callImageEditingModel` throws when the model answered
with text only. -/
def modelTextErr : String :=
  "Model responded with text instead of an image. The prompt may have been blocked."

/-- The substring each caller's catch block looks for with
`error.message.includes(...)`. -/
def modelTextErrKey : String :=
  "Model responded with text instead of an image"

/-- Leftmost match of the source regex `/(\d{4}s)/`: four decimal digits
followed by a lowercase `s`. -/
def findDecade : List Char → Option String
  | [] => none
  | c :: cs =>
    match cs with
    | c2 :: c3 :: c4 :: c5 :: _ =>
      if c.isDigit && c2.isDigit && c3.isDigit && c4.isDigit && c5 == 's' then
        some (String.mk [c, c2, c3, c4, c5])
      else
        findDecade cs
    | _ => none

/-- The source's `extractDecade(prompt)`: `prompt.match(/(\d{4}s)/)` returning
the captured group or null. -/
def extractDecade (prompt : String) : Option String :=
  findDecade prompt.data

/-- The source's `getFallbackPrompt(decade)` template literal. -/
def getFallbackPrompt (decade : String) : String :=
  "Create a photograph of the person in this image as if they were living in the "
    ++ decade
    ++ ". The photograph should capture the distinct fashion, hairstyles, and overall atmosphere of that time period. Ensure the final image is a clear photograph that looks authentic to the era."

/-- Shared shape of `generateFilteredImage`, `generateStyledImage`,
`generateAdjustedImage` and `generateTexturedImage` in the service layer:
first call `callImageEditingModel` with `pfx ++ prompt`; if that rejects with
a message containing `modelTextErrKey`, call once more with the bare
`prompt`; otherwise rethrow.  `call` abstracts `callImageEditingModel` as a
map from the text part of the request to its result, and the returned list
records the text parts of the calls actually issued, in order. -/
def generateWithFallbackPrompt (call : String → Except String String)
    (pfx prompt : String) : Except String String × List String :=
  match call (pfx ++ prompt) with
  | .ok r => (.ok r, [pfx ++ prompt])
  | .error e =>
    if jsIncludes e modelTextErrKey then
      (call prompt, [pfx ++ prompt, prompt])
    else
      (.error e, [pfx ++ prompt])

/-- The source's `generateFilteredImage` prompt logic. -/
def generateFilteredImage (call : String → Except String String) (prompt : String) :
    Except String String × List String :=
  generateWithFallbackPrompt call "Apply this filter: " prompt

/-- The source's `generateStyledImage` prompt logic. -/
def generateStyledImage (call : String → Except String String) (prompt : String) :
    Except String String × List String :=
  generateWithFallbackPrompt call "Apply this artistic style: " prompt

/-- The source's `generateAdjustedImage` prompt logic. -/
def generateAdjustedImage (call : String → Except String String) (prompt : String) :
    Except String String × List String :=
  generateWithFallbackPrompt call "Apply this adjustment: " prompt

/-- The source's `generateTexturedImage` prompt logic. -/
def generateTexturedImage (call : String → Except String String) (prompt : String) :
    Except String String × List String :=
  generateWithFallbackPrompt call "Apply this texture: " prompt

/-- The source's `generateDecadeImage(imageDataUrl, prompt)` prompt logic.
The text part of the first call is the prompt itself; the fallback is issued
only when the failure message contains `modelTextErrKey` *and*
`extractDecade(prompt)` finds a decade, and then uses
`getFallbackPrompt(decade)`.  The data-URL format validation at the top of
the function throws before any call is made and is orthogonal to the
fallback policy, so it is not modelled. -/
def generateDecadeImage (call : String → Except String String) (prompt : String) :
    Except String String × List String :=
  match call prompt with
  | .ok r => (.ok r, [prompt])
  | .error e =>
    if jsIncludes e modelTextErrKey then
      match extractDecade prompt with
      | none => (.error e, [prompt])
      | some decade => (call (getFallbackPrompt decade), [prompt, getFallbackPrompt decade])
    else
      (.error e, [prompt])

/-- Specification of the fallback policy for one service function whose run
produced `res` (result plus the list of issued text parts): a second call
happens exactly when the first call failed with the text-instead-of-image
message, the second call uses `secondPrompt` and determines the result, a
first-call failure of any other kind is propagated unchanged with no second
call, and a first-call success is returned as is. -/
def FallbackSpec (res : Except String String × List String)
    (call : String → Except String String) (firstPrompt secondPrompt : String) : Prop :=
  (res.2.length = 2 ↔
    ∃ e, call firstPrompt = .error e ∧ jsIncludes e modelTextErrKey = true) ∧
  (res.2.length = 2 → res.2 = [firstPrompt, secondPrompt] ∧ res.1 = call secondPrompt) ∧
  (∀ e, call firstPrompt = .error e → jsIncludes e modelTextErrKey = false →
    res = (.error e, [firstPrompt])) ∧
  (∀ r, call firstPrompt = .ok r → res = (.ok r, [firstPrompt]))

/-- Concrete completed batch of three tasks where the middle one failed. -/
def demoImages : List GeneratedImage :=
  [.done "u1", .error "boom", .done "u2"]

/-- Oracle making the first styled-image call fail and the retry succeed. -/
def demoOracle : Nat → Except String String :=
  fun attempt => if attempt = 0 then .error "boom" else .ok "data:image/png;base64,ok"

/-- Service-call oracle for which the filter prompt triggers the
text-instead-of-image failure and the bare fallback prompt succeeds. -/
def demoServiceCall : String → Except String String :=
  fun p =>
    if p = "Apply this filter: sunset" then .error modelTextErr
    else .ok "data:image/png;base64,ok"

/-- Terminal per-task status of the `PastForwardPage` batch (the transient
state is `pending`). -/
inductive TaskStatus where
  | pending
  | done
  | error
deriving DecidableEq, Repr

/-- One asynchronous computation of `handleGenerateClick` currently suspended
on an `await generateSingleDecade(t)` network call.  `initialWorker i` is the
`i`-th promise of `Array(concurrencyLimit).fill(null).map(processQueue)` —
note this `map` *invokes* `processQueue` once per slot, so each of these
starts a task immediately.  `loopWorker i` is the `i`-th promise of
`workers.map(async worker => { while (decadesQueue.length > 0) await
processQueue(); })`, the only promises `Promise.all` awaits. -/
inductive PFSlot where
  | initialWorker (i : Nat) (t : Nat)
  | loopWorker (i : Nat) (t : Nat)
deriving DecidableEq, Repr

/-- Event-loop state of one `handleGenerateClick` run.  `workers.get? i =
some (some t)` means the `i`-th initial worker is awaiting task `t`; `none`
entries are finished (or never got a task).  Likewise for the loop workers.
`queue` is `decadesQueue` (task indices still to be dequeued), `status` the
per-task entries of `generatedImages`, and `resultsShown` records whether the
continuation after `await Promise.all(...)` has run
(`setAppState('results-shown')`). -/
structure PFState where
  queue : List Nat
  workers : List (Option Nat)
  loops : List (Option Nat)
  status : List TaskStatus
  resultsShown : Bool
deriving DecidableEq, Repr

/-- Dequeue up to `n` tasks, one per worker slot; a slot that finds the queue
empty never runs a task and is immediately finished (`none`). -/
def takeTasks : Nat → List Nat → List (Option Nat) × List Nat
  | 0, q => ([], q)
  | n + 1, [] => (none :: (takeTasks n []).1, [])
  | n + 1, t :: q =>
    let (ws, q') := takeTasks n q
    (some t :: ws, q')

/-- The synchronous prologue of `handleGenerateClick` for `n` tasks and
concurrency limit `c`: all statuses are set to pending, the `c` initial
workers each dequeue and start a task (the `.map(processQueue)` invocations
run to their first `await`), and then the `c` loop workers each dequeue and
start a further task before suspending.  Every started task is in flight
simultaneously at the end of the prologue. -/
def pfInit (n c : Nat) : PFState :=
  let (ws, q1) := takeTasks c (List.range n)
  let (ls, q2) := takeTasks c q1
  { queue := q2, workers := ws, loops := ls,
    status := List.replicate n .pending,
    resultsShown := ls.all Option.isNone }

/-- Number of generation tasks currently in flight: workers of either kind
suspended on an `await` of the network call. -/
def pfInFlight (s : PFState) : Nat :=
  (s.workers.filterMap id).length + (s.loops.filterMap id).length

/-- The suspended computations whose awaited network call could complete
next. -/
def pfRunning (s : PFState) : List PFSlot :=
  s.workers.enum.filterMap (fun p => p.2.map (PFSlot.initialWorker p.1)) ++
    s.loops.enum.filterMap (fun p => p.2.map (PFSlot.loopWorker p.1))

/-- One event-loop step: the network call awaited by the `choice`-th running
slot completes (completion order is unconstrained, so the schedule picks).
Its status entry becomes `outcome t`.  An initial worker then simply
resolves — nothing awaits it.  A loop worker re-enters its `while` loop:
it dequeues the next task if one remains, and otherwise its promise
resolves; when the last loop promise resolves, the `Promise.all`
continuation sets `results-shown`. -/
def pfStep (outcome : Nat → TaskStatus) (s : PFState) (choice : Nat) : PFState :=
  match (pfRunning s).get? choice with
  | none => s
  | some (.initialWorker i t) =>
    { s with status := s.status.set t (outcome t), workers := s.workers.set i none }
  | some (.loopWorker i t) =>
    let status' := s.status.set t (outcome t)
    match s.queue with
    | [] =>
      let loops' := s.loops.set i none
      { s with
        status := status'
        loops := loops'
        resultsShown := s.resultsShown || loops'.all Option.isNone }
    | t' :: rest =>
      { s with status := status', queue := rest, loops := s.loops.set i (some t') }

/-- Run the pool of `handleGenerateClick` (6 decades, `concurrencyLimit = 2`)
under a completion schedule. -/
def pfRun (outcome : Nat → TaskStatus) (sched : List Nat) : PFState :=
  sched.foldl (pfStep outcome) (pfInit 6 2)

end AicePs

namespace AicePs

theorem histInvariant_initial : histInvariant initialEditorState := by
  constructor
  · intro _; rfl
  · intro h; exact absurd rfl h

theorem histInvariant_updateHistory (s : EditorState) (e : JsFile) :
    histInvariant (updateHistory e s) := by
  unfold updateHistory
  constructor
  · intro h
    simp at h
  · intro _
    simp only []
    constructor
    · have : 1 ≤ (jsSliceTo s.history (s.historyIndex + 1) ++ [e]).length := by
        simp
      omega
    · omega

theorem histInvariant_applyHistOp (s : EditorState) (op : HistOp)
    (h : histInvariant s) : histInvariant (applyHistOp s op) := by
  obtain ⟨hemp, hne⟩ := h
  cases op with
  | push e => exact histInvariant_updateHistory s e
  | undo =>
    simp only [applyHistOp, handleUndo]
    by_cases hc : 0 < s.historyIndex
    · rw [if_pos hc]
      refine ⟨fun h0 => ?_, fun hn => ?_⟩
      · dsimp only at h0 ⊢
        have := hemp h0
        omega
      · dsimp only at hn ⊢
        have := hne hn
        omega
    · rw [if_neg hc]
      exact ⟨hemp, hne⟩
  | redo =>
    simp only [applyHistOp, handleRedo]
    by_cases hc : s.historyIndex < (s.history.length : Int) - 1
    · rw [if_pos hc]
      refine ⟨fun h0 => ?_, fun hn => ?_⟩
      · dsimp only at h0 ⊢
        have h1 := hemp h0
        have h2 : s.history.length = 0 := by
          simp [h0]
        omega
      · dsimp only at hn ⊢
        have := hne hn
        omega
    · rw [if_neg hc]
      exact ⟨hemp, hne⟩
  | reset =>
    simp only [applyHistOp, handleStartOver]
    exact ⟨fun _ => rfl, fun h => absurd rfl h⟩

theorem histInvariant_runHistOps (ops : List HistOp) :
    histInvariant (runHistOps ops) := by
  have main : ∀ (l : List HistOp) (s : EditorState), histInvariant s →
      histInvariant (l.foldl applyHistOp s) := by
    intro l
    induction l with
    | nil => intro s hs; exact hs
    | cons op rest ih =>
      intro s hs
      exact ih _ (histInvariant_applyHistOp s op hs)
  exact main ops initialEditorState histInvariant_initial

theorem get?_concat_length (l : List α) (a : α) : (l ++ [a]).get? l.length = some a := by
  induction l with
  | nil => rfl
  | cons x xs ih => simp [ih]

theorem current_updateHistory (s : EditorState) (e : JsFile) :
    current (updateHistory e s) = some e := by
  unfold current updateHistory
  dsimp only
  set l := jsSliceTo s.history (s.historyIndex + 1) with hl
  have hlen : (l ++ [e]).length = l.length + 1 := by simp
  have hpos : 0 ≤ ((l ++ [e]).length : Int) - 1 := by
    rw [hlen]; push_cast; omega
  rw [if_pos hpos]
  have htn : (((l ++ [e]).length : Int) - 1).toNat = l.length := by
    rw [hlen]; omega
  rw [htn]
  exact get?_concat_length l e

/-- C3: for every finite sequence of push (`updateHistory`), undo
(`handleUndo`), redo (`handleRedo`) and reset (`handleStartOver`) operations
starting from the empty history, `0 ≤ historyIndex < history.length` holds
whenever the history is non-empty and `historyIndex = -1` when it is empty,
and `current` immediately after a push of `e` returns `e`. -/
theorem claim3_history_invariant (ops : List HistOp) :
    histInvariant (runHistOps ops) ∧
    ∀ e : JsFile, current (updateHistory e (runHistOps ops)) = some e :=
  ⟨histInvariant_runHistOps ops, fun e => current_updateHistory (runHistOps ops) e⟩

/-- C4: `updateHistory` removes exactly the entries at indices greater than
the cursor (it keeps indices `0 .. historyIndex`), appends the new entry, and
sets the cursor to the new last index; in particular pushing after undoing
twice from a 5-entry history yields a 4-entry history with entries 0..2
preserved and the new entry at index 3. -/
theorem claim4_push_truncates (s : EditorState) (e : JsFile)
    (h : -1 ≤ s.historyIndex) :
    (updateHistory e s).history = s.history.take (s.historyIndex + 1).toNat ++ [e] ∧
    (updateHistory e s).historyIndex = ((updateHistory e s).history.length : Int) - 1 ∧
    ∀ a b c d f n : JsFile,
      updateHistory n (handleUndo (handleUndo
        { history := [a, b, c, d, f], historyIndex := 4, lastAction := none,
          isLoading := false, error := none }))
      = { history := [a, b, c, n], historyIndex := 3, lastAction := none,
          isLoading := false, error := none } := by
  refine ⟨?_, rfl, ?_⟩
  · unfold updateHistory jsSliceTo
    dsimp only
    rw [if_neg (by omega)]
  · intro a b c d f n
    rfl

/-- Witness for C4 at a concrete input: a one-entry history with cursor 0,
and the concrete 5-entry undo-undo-push scenario of the specification. -/
theorem claim4_push_truncates_witness :
    (updateHistory (sampleFile 1) demoEditorState).history
      = demoEditorState.history.take (demoEditorState.historyIndex + 1).toNat ++ [sampleFile 1] ∧
    updateHistory (sampleFile 5) (handleUndo (handleUndo
      { history := [sampleFile 0, sampleFile 1, sampleFile 2, sampleFile 3, sampleFile 4],
        historyIndex := 4, lastAction := none, isLoading := false, error := none }))
      = { history := [sampleFile 0, sampleFile 1, sampleFile 2, sampleFile 5],
          historyIndex := 3, lastAction := none, isLoading := false, error := none } := by
  have h := claim4_push_truncates demoEditorState (sampleFile 1) (by decide)
  exact ⟨h.1, h.2.2 (sampleFile 0) (sampleFile 1) (sampleFile 2) (sampleFile 3)
    (sampleFile 4) (sampleFile 5)⟩

/-- C5 evaluation at the failing input: from a 3-entry history with the
cursor on the last entry and an adjust action recorded, a successful
regenerate *appends* the new file (4 entries, cursor 3) because
`updateHistory` runs in the closure that still sees the pre-decrement
cursor; the specified behaviour "move cursor back one, then push" would give
3 entries with cursor 2.  The two results differ. -/
theorem claim5_regenerate_stale_closure :
    handleRegenerate regenState3 (.ok (sampleFile 9))
      = { history := [sampleFile 0, sampleFile 1, sampleFile 2, sampleFile 9],
          historyIndex := 3, lastAction := some (.adjust "warmer colors"),
          isLoading := false, error := none } ∧
    regenerateSpecResult regenState3 (sampleFile 9)
      = { history := [sampleFile 0, sampleFile 1, sampleFile 9],
          historyIndex := 2, lastAction := some (.adjust "warmer colors"),
          isLoading := false, error := none } ∧
    handleRegenerate regenState3 (.ok (sampleFile 9))
      ≠ regenerateSpecResult regenState3 (sampleFile 9) := by
  decide

/-- C10: when the generative call issued by `handleRegenerate` fails, the
history entries are unchanged but the cursor stays decremented by one, so
`current` afterwards returns the entry preceding the one that was current
before regenerate was invoked. -/
theorem claim10_regenerate_failure (s : EditorState) (msg : String)
    (hla : s.lastAction ≠ none) (hidx : 1 ≤ s.historyIndex)
    (hload : s.isLoading = false) :
    (handleRegenerate s (.error msg)).history = s.history ∧
    (handleRegenerate s (.error msg)).historyIndex = s.historyIndex - 1 ∧
    current (handleRegenerate s (.error msg))
      = s.history.get? (s.historyIndex - 1).toNat := by
  have hguard : ¬(s.lastAction = none ∨ s.historyIndex < 1 ∨ s.isLoading = true) := by
    push_neg
    exact ⟨hla, by omega, by simp [hload]⟩
  unfold handleRegenerate
  rw [if_neg hguard]
  refine ⟨rfl, rfl, ?_⟩
  unfold current
  dsimp only
  rw [if_pos (by omega)]

/-- Witness for C10 at the concrete 3-entry state: after a failed regenerate
the history still has its three entries and the cursor moved from 2 to 1. -/
theorem claim10_regenerate_failure_witness :
    (handleRegenerate regenState3 (.error "network down")).history = regenState3.history ∧
    (handleRegenerate regenState3 (.error "network down")).historyIndex
      = regenState3.historyIndex - 1 ∧
    current (handleRegenerate regenState3 (.error "network down"))
      = regenState3.history.get? (regenState3.historyIndex - 1).toNat :=
  claim10_regenerate_failure regenState3 "network down" (by decide) (by decide) rfl

/-- C8 (amended): the initial upload path `handleLocalFileSelect` rejects a
file over the 12 MB cap synchronously — the validation error banner is set
and the history and cursor are untouched, with no network involved — while
the replace-image path `handleFileInputChange` checks only that the MIME
type starts with `image/` and accepts a file of any size, resetting the
history to just that file with cursor 0 (its memoized first-render closure
runs `updateHistory` over the empty initial history). -/
theorem claim8_upload_size_validation (s : EditorState) (file : JsFile)
    (rest : List JsFile) (hsize : maxFileSizeBytes < file.size) :
    ((handleLocalFileSelect (file :: rest) s).history = s.history ∧
     (handleLocalFileSelect (file :: rest) s).historyIndex = s.historyIndex ∧
     (handleLocalFileSelect (file :: rest) s).error
       = some "图片文件大小不能超过 12MB。请选择一个较小的文件。") ∧
    (jsStartsWith file.type "image/" = true →
      (handleFileInputChange (some file) s).history = [file] ∧
      (handleFileInputChange (some file) s).historyIndex = 0 ∧
      (handleFileInputChange (some file) s).error = s.error) := by
  constructor
  · unfold handleLocalFileSelect
    dsimp only
    rw [if_pos hsize]
    exact ⟨rfl, rfl, rfl⟩
  · intro htype
    unfold handleFileInputChange
    dsimp only
    rw [if_pos htype]
    refine ⟨?_, rfl, rfl⟩
    simp [updateHistory, jsSliceTo]

/-- Witness for C8 at a concrete input: a 12 MB + 1 byte PNG offered to both
upload paths of a one-entry editor state. -/
theorem claim8_upload_size_validation_witness :
    (handleLocalFileSelect [oversizedFile] demoEditorState).history
      = demoEditorState.history ∧
    (handleLocalFileSelect [oversizedFile] demoEditorState).error
      = some "图片文件大小不能超过 12MB。请选择一个较小的文件。" ∧
    (handleFileInputChange (some oversizedFile) demoEditorState).history
      = [oversizedFile] := by
  have h := claim8_upload_size_validation demoEditorState oversizedFile [] (by decide)
  exact ⟨h.1.1, h.1.2.2, (h.2 (by decide)).1⟩

/-- C8 counterexample: the replace-image path accepts an oversized image —
the history changes (it is reset to the oversized file alone) and no
validation error is surfaced — so it is not true that every upload path of
the editor rejects a file over the 12 MB cap leaving the history state
unchanged. -/
theorem claim8_counterexample :
    maxFileSizeBytes < oversizedFile.size ∧
    (handleFileInputChange (some oversizedFile) demoEditorState).history
      = [oversizedFile] ∧
    (handleFileInputChange (some oversizedFile) demoEditorState).history
      ≠ demoEditorState.history ∧
    (handleFileInputChange (some oversizedFile) demoEditorState).error
      = demoEditorState.error := by
  decide

theorem filter_isSuccess_length_lt (images : List GeneratedImage)
    (hnp : ∀ img ∈ images, img.isPending = false)
    (hurl : ∀ u, GeneratedImage.done u ∈ images → u.isEmpty = false) :
    (images.filter GeneratedImage.isSuccess).length < images.length ↔
      ∃ img ∈ images, img.isError = true := by
  induction images with
  | nil => simp
  | cons img rest ih =>
    have hnp' : ∀ i ∈ rest, i.isPending = false := fun i hi => hnp i (by simp [hi])
    have hurl' : ∀ u, GeneratedImage.done u ∈ rest → u.isEmpty = false :=
      fun u hu => hurl u (by simp [hu])
    have ihr := ih hnp' hurl'
    cases img with
    | pending =>
      have := hnp .pending (by simp)
      simp [GeneratedImage.isPending] at this
    | done u =>
      have hu : u.isEmpty = false := hurl u (by simp)
      have hs : GeneratedImage.isSuccess (.done u) = true := by
        simp [GeneratedImage.isSuccess, hu]
      simp only [List.filter_cons, hs, if_pos, List.length_cons]
      constructor
      · intro hlt
        obtain ⟨i, hi, he⟩ := ihr.mp (by omega)
        exact ⟨i, by simp [hi], he⟩
      · intro ⟨i, hi, he⟩
        rcases List.mem_cons.mp hi with rfl | hi'
        · simp [GeneratedImage.isError] at he
        · have := ihr.mpr ⟨i, hi', he⟩
          omega
    | error m =>
      rw [List.filter_cons_of_neg (by simp [GeneratedImage.isSuccess])]
      simp only [List.length_cons]
      constructor
      · intro _
        exact ⟨.error m, by simp, rfl⟩
      · intro _
        have := List.length_filter_le GeneratedImage.isSuccess rest
        omega

theorem filter_isSuccess_urls (images : List GeneratedImage)
    (hurl : ∀ u, GeneratedImage.done u ∈ images → u.isEmpty = false) :
    (images.filter GeneratedImage.isSuccess).filterMap GeneratedImage.url?
      = images.filterMap GeneratedImage.url? := by
  induction images with
  | nil => rfl
  | cons img rest ih =>
    have hurl' : ∀ u, GeneratedImage.done u ∈ rest → u.isEmpty = false :=
      fun u hu => hurl u (by simp [hu])
    have ihr := ih hurl'
    cases img with
    | pending =>
      simp [List.filter_cons, GeneratedImage.isSuccess, GeneratedImage.url?, ihr]
    | done u =>
      have hu : u.isEmpty = false := hurl u (by simp)
      simp [List.filter_cons, GeneratedImage.isSuccess, GeneratedImage.url?, hu, ihr]
    | error m =>
      simp [List.filter_cons, GeneratedImage.isSuccess, GeneratedImage.url?, ihr]

theorem filter_isSuccess_pos (images : List GeneratedImage) (u : String)
    (hmem : GeneratedImage.done u ∈ images) (hu : u.isEmpty = false) :
    0 < (images.filter GeneratedImage.isSuccess).length := by
  have : GeneratedImage.done u ∈ images.filter GeneratedImage.isSuccess := by
    rw [List.mem_filter]
    exact ⟨hmem, by simp [GeneratedImage.isSuccess, hu]⟩
  exact List.length_pos.mpr (fun hnil => by simp [hnil] at this)

/-- C6: once a `BeatSyncPage` batch has completed (`allDone` holds, and done
entries carry the non-empty data URLs the service layer produces), the
aggregation effect yields the single total-failure error state when every
task errored, and otherwise calls `createVideo` with exactly the successful
tasks' urls, showing the non-fatal partial-failure notification exactly when
some task errored. -/
theorem claim6_batch_aggregation (images : List GeneratedImage) (imageCount : Nat)
    (hdone : allDone images imageCount = true)
    (hurl : ∀ u, GeneratedImage.done u ∈ images → u.isEmpty = false) :
    ((∀ img ∈ images, img.isError = true) →
      finishBatch images imageCount = .totalFailure "所有图片生成失败，请重试。") ∧
    (∀ u, GeneratedImage.done u ∈ images →
      finishBatch images imageCount
        = .createVideo (images.filterMap GeneratedImage.url?)
            (decide (∃ img ∈ images, img.isError = true))) := by
  simp only [allDone, Bool.and_eq_true, beq_iff_eq, List.all_eq_true,
    Bool.not_eq_true'] at hdone
  obtain ⟨hcount, hnp⟩ := hdone
  constructor
  · intro hall
    have hnil : images.filter GeneratedImage.isSuccess = [] := by
      rw [List.filter_eq_nil_iff]
      intro img hi
      have := hall img hi
      cases img with
      | pending => simp [GeneratedImage.isError] at this
      | done u => simp [GeneratedImage.isError] at this
      | error m => simp [GeneratedImage.isSuccess]
    unfold finishBatch
    rw [hnil]
    rfl
  · intro u hmem
    have hpos := filter_isSuccess_pos images u hmem (hurl u hmem)
    unfold finishBatch
    rw [if_neg (by omega)]
    rw [filter_isSuccess_urls images hurl]
    congr 1
    refine decide_eq_decide.mpr ?_
    rw [← hcount]
    exact filter_isSuccess_length_lt images hnp hurl

/-- Witness for C6 on a concrete completed batch of three tasks with one
failure: the video is created from the two successful urls and the partial
notice is shown. -/
theorem claim6_batch_aggregation_witness :
    finishBatch demoImages 3
      = .createVideo (demoImages.filterMap GeneratedImage.url?)
          (decide (∃ img ∈ demoImages, img.isError = true)) := by
  have h := claim6_batch_aggregation demoImages 3 (by decide)
    (by intro u hu
        simp only [demoImages, List.mem_cons, List.not_mem_nil, or_false] at hu
        rcases hu with h1 | h2 | h3
        · rw [GeneratedImage.done.injEq] at h1
          subst h1; rfl
        · exact absurd h2 (by simp)
        · rw [GeneratedImage.done.injEq] at h3
          subst h3; rfl)
  exact h.2 "u1" (by decide)

theorem retryCallCount_retries_zero (oracle : Nat → Except String String) (a : Nat) :
    retryCallCount oracle a 0 = 1 := by
  cases h : oracle a <;> simp [retryCallCount, h]

/-- C7: for a task wrapped by `generateWithRetry` with the default
`retries = 1`, a first failure followed by a successful retry yields terminal
status done with the retried result; two failures yield status error; and at
most two calls (one original, one retry) are ever issued. -/
theorem claim7_retry_policy (oracle : Nat → Except String String) :
    (∀ e r, oracle 0 = .error e → oracle 1 = .ok r →
      processQueueStatus oracle = .done r) ∧
    (∀ e₀ e₁, oracle 0 = .error e₀ → oracle 1 = .error e₁ →
      processQueueStatus oracle = .error e₁) ∧
    retryCallCount oracle 0 1 ≤ 2 := by
  refine ⟨?_, ?_, ?_⟩
  · intro e r h0 h1
    unfold processQueueStatus generateWithRetry
    rw [h0]
    unfold generateWithRetry
    rw [h1]
  · intro e₀ e₁ h0 h1
    unfold processQueueStatus generateWithRetry
    rw [h0]
    unfold generateWithRetry
    rw [h1]
  · cases h0 : oracle 0 with
    | ok r => simp [retryCallCount, h0]
    | error e =>
      simp [retryCallCount, h0, retryCallCount_retries_zero]

/-- Witness for C7: with an oracle whose first call fails and whose retry
succeeds, the task ends done with the retried data URL after two calls. -/
theorem claim7_retry_policy_witness :
    processQueueStatus demoOracle = .done "data:image/png;base64,ok" ∧
    retryCallCount demoOracle 0 1 ≤ 2 := by
  have h := claim7_retry_policy demoOracle
  exact ⟨h.1 "boom" "data:image/png;base64,ok" rfl rfl, h.2.2⟩

theorem fallbackSpec_generateWithFallbackPrompt (call : String → Except String String)
    (pfx prompt : String) :
    FallbackSpec (generateWithFallbackPrompt call pfx prompt) call (pfx ++ prompt) prompt := by
  unfold FallbackSpec generateWithFallbackPrompt
  cases hc : call (pfx ++ prompt) with
  | ok r =>
    dsimp only
    refine ⟨by simp, by simp, ?_, ?_⟩
    · intro e he
      exact absurd he (by simp)
    · intro r' hr
      rw [Except.ok.injEq] at hr
      subst hr
      rfl
  | error e =>
    dsimp only
    cases hinc : jsIncludes e modelTextErrKey with
    | true =>
      rw [if_pos rfl]
      refine ⟨?_, fun _ => ⟨rfl, rfl⟩, ?_, ?_⟩
      · exact ⟨fun _ => ⟨e, rfl, hinc⟩, fun _ => rfl⟩
      · intro e' he' hni
        rw [Except.error.injEq] at he'
        subst he'
        rw [hinc] at hni
        exact absurd hni (by simp)
      · intro r hr
        exact absurd hr (by simp)
    | false =>
      rw [if_neg (by simp)]
      refine ⟨?_, ?_, ?_, ?_⟩
      · constructor
        · intro h1
          simp at h1
        · rintro ⟨e', he', hinc'⟩
          rw [Except.error.injEq] at he'
          subst he'
          rw [hinc] at hinc'
          simp at hinc'
      · intro h2
        simp at h2
      · intro e' he' _
        rw [Except.error.injEq] at he'
        subst he'
        rfl
      · intro r hr
        exact absurd hr (by simp)

theorem fallbackSpec_generateDecadeImage (call : String → Except String String)
    (prompt decade : String) (hd : extractDecade prompt = some decade) :
    FallbackSpec (generateDecadeImage call prompt) call prompt (getFallbackPrompt decade) := by
  unfold FallbackSpec generateDecadeImage
  cases hc : call prompt with
  | ok r =>
    dsimp only
    refine ⟨by simp, by simp, ?_, ?_⟩
    · intro e he
      exact absurd he (by simp)
    · intro r' hr
      rw [Except.ok.injEq] at hr
      subst hr
      rfl
  | error e =>
    dsimp only
    cases hinc : jsIncludes e modelTextErrKey with
    | true =>
      rw [if_pos rfl, hd]
      dsimp only
      refine ⟨?_, fun _ => ⟨rfl, rfl⟩, ?_, ?_⟩
      · exact ⟨fun _ => ⟨e, rfl, hinc⟩, fun _ => rfl⟩
      · intro e' he' hni
        rw [Except.error.injEq] at he'
        subst he'
        rw [hinc] at hni
        exact absurd hni (by simp)
      · intro r hr
        exact absurd hr (by simp)
    | false =>
      rw [if_neg (by simp)]
      refine ⟨?_, ?_, ?_, ?_⟩
      · constructor
        · intro h1
          simp at h1
        · rintro ⟨e', he', hinc'⟩
          rw [Except.error.injEq] at he'
          subst he'
          rw [hinc] at hinc'
          simp at hinc'
      · intro h2
        simp at h2
      · intro e' he' _
        rw [Except.error.injEq] at he'
        subst he'
        rfl
      · intro r hr
        exact absurd hr (by simp)

theorem generateDecadeImage_no_decade (call : String → Except String String)
    (prompt : String) (hd : extractDecade prompt = none) (e : String)
    (hc : call prompt = .error e) :
    generateDecadeImage call prompt = (.error e, [prompt]) := by
  unfold generateDecadeImage
  rw [hc]
  dsimp only
  cases hinc : jsIncludes e modelTextErrKey with
  | true =>
    rw [if_pos rfl, hd]
  | false =>
    rw [if_neg (by simp)]

/-- C9 (amended): each of the four prefix-based generation functions
re-issues the call with the bare prompt exactly when the first attempt fails
with the "Model responded with text instead of an image" condition, and
propagates any other first-attempt error unchanged with no second call;
`generateDecadeImage` behaves the same way with `getFallbackPrompt` as the
second prompt, but only when a decade token can be extracted from the prompt
— when `extractDecade` finds none, even a text-condition failure is rethrown
with no second call. -/
theorem claim9_fallback_policy (call : String → Except String String) (prompt : String) :
    FallbackSpec (generateFilteredImage call prompt) call
      ("Apply this filter: " ++ prompt) prompt ∧
    FallbackSpec (generateStyledImage call prompt) call
      ("Apply this artistic style: " ++ prompt) prompt ∧
    FallbackSpec (generateAdjustedImage call prompt) call
      ("Apply this adjustment: " ++ prompt) prompt ∧
    FallbackSpec (generateTexturedImage call prompt) call
      ("Apply this texture: " ++ prompt) prompt ∧
    (∀ d, extractDecade prompt = some d →
      FallbackSpec (generateDecadeImage call prompt) call prompt (getFallbackPrompt d)) ∧
    (extractDecade prompt = none → ∀ e, call prompt = .error e →
      generateDecadeImage call prompt = (.error e, [prompt])) :=
  ⟨fallbackSpec_generateWithFallbackPrompt call "Apply this filter: " prompt,
   fallbackSpec_generateWithFallbackPrompt call "Apply this artistic style: " prompt,
   fallbackSpec_generateWithFallbackPrompt call "Apply this adjustment: " prompt,
   fallbackSpec_generateWithFallbackPrompt call "Apply this texture: " prompt,
   fun d hd => fallbackSpec_generateDecadeImage call prompt d hd,
   fun hd e hc => generateDecadeImage_no_decade call prompt hd e hc⟩

/-- Witness for C9: for the concrete service oracle whose filter prompt
triggers the text-instead-of-image failure, `generateFilteredImage` issues
exactly the two prompts (prefixed, then bare) and returns the fallback
call's result. -/
theorem claim9_fallback_policy_witness :
    (generateFilteredImage demoServiceCall "sunset").2
      = ["Apply this filter: " ++ "sunset", "sunset"] ∧
    (generateFilteredImage demoServiceCall "sunset").1 = demoServiceCall "sunset" := by
  have h := (claim9_fallback_policy demoServiceCall "sunset").1
  have hlen : (generateFilteredImage demoServiceCall "sunset").2.length = 2 :=
    h.1.mpr ⟨modelTextErr, by rfl, by decide⟩
  exact h.2.1 hlen

/-- C9 counterexample: `generateDecadeImage` called with a prompt containing
no decade token fails the claimed iff — the first attempt rejects with the
text-instead-of-image condition, yet no fallback call is issued and the
error is rethrown. -/
theorem claim9_counterexample :
    jsIncludes modelTextErr modelTextErrKey = true ∧
    extractDecade "a beautiful sunset" = none ∧
    generateDecadeImage (fun _ => .error modelTextErr) "a beautiful sunset"
      = (.error modelTextErr, ["a beautiful sunset"]) := by
  refine ⟨by decide, by decide, by rfl⟩

/-- C1 evaluation at the failing input: the synchronous prologue of
`PastForwardPage.handleGenerateClick` (6 decades, `concurrencyLimit = 2`)
leaves 4 generation tasks in flight simultaneously, because
`Array(concurrencyLimit).fill(null).map(processQueue)` already starts one
task per slot and the loop workers passed to `Promise.all` start 2 more. -/
theorem claim1_pool_in_flight_exceeds_limit :
    pfInFlight (pfInit 6 2) = 4 ∧ 2 < pfInFlight (pfInit 6 2) := by
  decide

/-- C2 evaluation at the failing input: under the completion schedule in
which the four tasks started by the loop workers finish first, `Promise.all`
resolves and `results-shown` is set while the two tasks started by the
initial `.map(processQueue)` workers are still pending — those two promises
are never awaited. -/
theorem claim2_results_shown_with_pending_tasks :
    (pfRun (fun _ => .done) [2, 2, 3, 2]).resultsShown = true ∧
    (pfRun (fun _ => .done) [2, 2, 3, 2]).status.get? 0 = some .pending ∧
    (pfRun (fun _ => .done) [2, 2, 3, 2]).status.get? 1 = some .pending ∧
    pfInFlight (pfRun (fun _ => .done) [2, 2, 3, 2]) = 2 := by
  decide

end AicePs
